import Mathlib

/-!
# term-shredder: navigation state machine of `main.go`

Shallow embedding of the Go program `src/main.go`.

The package-level variables `files`, `currentFile`, `fileList.Rows` and `done`
become the fields of an explicit `State` that every function receives and
returns.  Calls into the terminal library (`ui.Render`, `ScrollUp`,
`ScrollDown`), `fmt.Printf` and `os.Remove` are recorded, in program order, in
the `log` field.  Go run-time panics (index or slice out of range, `close` of a
closed or nil channel) are the error case of `Except Panic`.

There are two event channels.  `main` receives from the channel it got from
`ui.PollEvents()` at line 60; every call of `confirmExit` receives from a
channel of its own, got from a second `ui.PollEvents()` at line 163, while the
reader behind the channel of `main` stays alive.  So the input of a run is the
sequence of events the channel of `main` delivers, and each of these events
carries what the program does not control if it is handled: which case Go's
`select` takes when the event and the closed `done` channel are both ready,
what `os.Remove` returns if the event triggers a removal, and which keys the
channel opened by `confirmExit` delivers if the event is a quit key.  A key
typed while the prompt is shown may be delivered on either channel: one that
the channel of `main` delivers is handled by the `switch` of `main` after
`confirmExit` has returned.
-/

namespace TermShredder

/-- The state of the channel `done`: `nil` before `initUI`, then made, then closed. -/
inductive Chan where
  | nil
  | opened
  | closed
  deriving DecidableEq, Repr

/-- Go run-time panics the modelled functions can raise. -/
inductive Panic where
  | indexOutOfRange
  | closeOfClosedChannel
  | closeOfNilChannel
  deriving DecidableEq, Repr

/-- The three widgets the program draws. -/
inductive Widget where
  | fileListTitle
  | fileList
  | confirmText
  deriving DecidableEq, Repr

/-- Externally visible actions, recorded in program order. -/
inductive Effect where
  | printf (format arg : String)
  | println (msg : String)
  | remove (path : String)
  | render (ws : List Widget)
  | scrollUp
  | scrollDown
  deriving DecidableEq, Repr

/-- The package-level variables of `main.go` (lines 18-24) plus the effect log. -/
structure State where
  files : List String
  currentFile : Int
  rows : List String
  done : Chan
  log : List Effect
  deriving DecidableEq, Repr

/-- One entry handed to the walk callback: its path and either the access
error (`err != nil`; `info` is then not inspected) or `info.IsDir()`. -/
structure WalkEntry where
  path : String
  info : Except String Bool

/-- One event `e` received by `main` from its channel `uiEvents` (line 63):
its `e.ID`, whether `select` takes the event case when `done` is closed too,
the error `os.Remove` returns if this event triggers a removal (`none` is
success), and the `e.ID`s that the channel opened by `confirmExit` (line 163)
delivers if this event is a quit key. -/
structure Event where
  ID : String
  raced : Bool
  removeErr : Option String
  prompt : List String
  deriving DecidableEq, Repr

/-- The walk callback of `main` (lines 39-48): the new `files`, what it
printed, and the error it returns to `filepath.Walk` (`none` is `nil`). -/
def walkFn (files : List String) (e : WalkEntry) :
    List String × List Effect × Option String :=
  match e.info with
  | .error err => (files, [Effect.printf "Failed to access path: %v\n" err], none)
  | .ok isDir =>
    if !isDir then (files ++ [e.path], [], none)
    else (files, [], none)

/-- The call `filepath.Walk` restricted to what it does with the callback: each
visited entry is handed to `walkFn` in visit order, and the first error the
callback returns aborts the walk and is returned. -/
def walk (files : List String) (log : List Effect) :
    List WalkEntry → List String × List Effect × Option String
  | [] => (files, log, none)
  | e :: rest =>
    match walkFn files e with
    | (files1, out, none) => walk files1 (log ++ out) rest
    | (files1, out, some err) => (files1, log ++ out, some err)

/-- Function `initUI` (lines 104-120): the list widget shows `files`, both
widgets are rendered, `done` is made. -/
def initUI (s : State) : State :=
  { s with
    rows := s.files
    log := s.log ++ [Effect.render [Widget.fileListTitle, Widget.fileList]]
    done := Chan.opened }

/-- Function `deleteCurrentFile` (lines 122-133). -/
def deleteCurrentFile (s : State) (removeErr : Option String) : Except Panic State :=
  if s.currentFile < (s.files.length : Int) then
    if s.currentFile < 0 then
      .error Panic.indexOutOfRange
    else
      let i := s.currentFile.toNat
      let path := s.files.getD i ""
      let log1 := s.log ++ [Effect.remove path]
      let log2 :=
        match removeErr with
        | some err => log1 ++ [Effect.printf "Failed to delete file: %v\n" err]
        | none => log1
      let files1 := s.files.take i ++ s.files.drop (i + 1)
      .ok { s with
            files := files1
            rows := files1
            log := log2 ++ [Effect.render [Widget.fileList]] }
  else
    .ok { s with
          rows := s.files
          log := s.log ++ [Effect.render [Widget.fileList]] }

/-- Function `moveToPreviousFile` (lines 135-141). -/
def moveToPreviousFile (s : State) : State :=
  if s.currentFile > 0 then
    { s with
      currentFile := s.currentFile - 1
      log := s.log ++ [Effect.scrollUp,
        Effect.render [Widget.fileListTitle, Widget.fileList]] }
  else s

/-- Function `moveToNextFile` (lines 143-152). -/
def moveToNextFile (s : State) : Except Panic State :=
  if s.currentFile < (s.files.length : Int) - 1 then
    .ok { s with
          currentFile := s.currentFile + 1
          log := s.log ++ [Effect.scrollDown,
            Effect.render [Widget.fileListTitle, Widget.fileList]] }
  else
    let s1 := { s with log := s.log ++ [Effect.render [Widget.fileListTitle]] }
    match s.done with
    | Chan.opened => .ok { s1 with done := Chan.closed }
    | Chan.closed => .error Panic.closeOfClosedChannel
    | Chan.nil => .error Panic.closeOfNilChannel

/-- What a call of `confirmExit` comes to: it returned `confirm`, or it is
still blocked on its event channel. -/
inductive ConfirmResult where
  | answered (confirm : Bool) (s : State)
  | blocked (s : State)
  deriving DecidableEq, Repr

/-- The receive loop of `confirmExit` (lines 164-173) on the `e.ID`s its own
channel delivers. -/
def confirmLoop (s : State) : List String → ConfirmResult
  | [] => ConfirmResult.blocked s
  | k :: rest =>
    if k = "y" then ConfirmResult.answered true s
    else if k = "n" then
      ConfirmResult.answered false
        { s with log := s.log ++ [Effect.render [Widget.fileListTitle, Widget.fileList]] }
    else confirmLoop s rest

/-- Function `confirmExit` (lines 154-174); `ks` is what the channel it gets
from `ui.PollEvents()` delivers. -/
def confirmExit (s : State) (ks : List String) : ConfirmResult :=
  confirmLoop { s with log := s.log ++ [Effect.render [Widget.confirmText]] } ks

/-- The `switch e.ID` of `main` for the keys other than the quit keys
(lines 70-81); any other key matches no case. -/
def handleKey (s : State) (e : Event) : Except Panic State :=
  if e.ID = "<Enter>" then deleteCurrentFile s e.removeErr
  else if e.ID = "<Space>" then moveToNextFile s
  else if e.ID = "j" then .ok (moveToPreviousFile s)
  else if e.ID = "k" then moveToNextFile s
  else if e.ID = "<Up>" then .ok (moveToPreviousFile s)
  else if e.ID = "<Down>" then moveToNextFile s
  else .ok s

/-- How a run of `main` on finitely many events ends. -/
inductive Outcome where
  | returned (s : State)
  | blocked (s : State)
  | blockedConfirm (s : State)
  | panicked (p : Panic) (s : State)
  deriving DecidableEq, Repr

/-- The state a run ended in (for a panic: the state when the panicking
function was called). -/
def Outcome.state : Outcome → State
  | .returned s => s
  | .blocked s => s
  | .blockedConfirm s => s
  | .panicked _ s => s

/-- The `for { select { ... } }` loop of `main` (lines 61-86) on the events
`evs` its channel delivers.  With `done` closed the `<-done` case is ready: it
is taken when no event is ready or when `select` picks it (`e.raced = false`).
A quit key calls `confirmExit`, which reads the channel of its own; when that
returns false the loop goes on with the next event of the channel of `main`. -/
def mainLoop (s : State) : List Event → Outcome
  | [] => if s.done = Chan.closed then Outcome.returned s else Outcome.blocked s
  | e :: rest =>
    if s.done = Chan.closed ∧ e.raced = false then Outcome.returned s
    else if e.ID = "q" ∨ e.ID = "<C-c>" then
      match confirmExit s e.prompt with
      | ConfirmResult.blocked s1 => Outcome.blockedConfirm s1
      | ConfirmResult.answered true s1 => Outcome.returned s1
      | ConfirmResult.answered false s1 => mainLoop s1 rest
    else
      match handleKey s e with
      | .error p => Outcome.panicked p s
      | .ok s1 => mainLoop s1 rest

/-- Function `main` from the directory walk on (lines 39-86): `entries` is what
the walk visits, `evs` the terminal events. -/
def main (entries : List WalkEntry) (evs : List Event) : Outcome :=
  let s0 : State := { files := [], currentFile := 0, rows := [], done := Chan.nil, log := [] }
  match walk s0.files s0.log entries with
  | (files1, log1, some err) =>
    Outcome.returned
      { s0 with files := files1
                log := log1 ++ [Effect.printf "Failed to walk directory: %v\n" err] }
  | (files1, log1, none) =>
    if files1.length = 0 then
      Outcome.returned
        { s0 with files := files1
                  log := log1 ++ [Effect.println "No files found in the directory."] }
    else
      mainLoop (initUI { s0 with files := files1, log := log1 }) evs

/-- Plain key press: not favoured by `select` over a closed `done`, removal
succeeds, and a prompt it opens gets no key. -/
def key (k : String) : Event := { ID := k, raced := false, removeErr := none, prompt := [] }

/-- The state `main` enters its event loop with when the walk found `fs`. -/
def startState (fs : List String) : State :=
  initUI { files := fs, currentFile := 0, rows := [], done := Chan.nil, log := [] }

/-- The cursor bound the code maintains: `0 <= currentFile <= len(files)`. -/
def CursorOk (s : State) : Prop :=
  0 ≤ s.currentFile ∧ s.currentFile ≤ (s.files.length : Int)

/-- States the program can be in after `main` entered its loop with a non-empty
list and the cursor at 0 and handled some events. -/
def Reachable (s : State) : Prop :=
  ∃ (s0 : State) (evs : List Event),
    s0.files ≠ [] ∧ s0.currentFile = 0 ∧ (mainLoop (initUI s0) evs).state = s

/-- The paths the walk is specified to collect: entries without error that are
not directories, in visit order. -/
def regularPaths (entries : List WalkEntry) : List String :=
  entries.filterMap fun e =>
    match e.info with
    | .ok false => some e.path
    | _ => none

/-- What the walk prints: one message per entry with an access error. -/
def accessMessages (entries : List WalkEntry) : List Effect :=
  entries.filterMap fun e =>
    match e.info with
    | .error err => some (Effect.printf "Failed to access path: %v\n" err)
    | _ => none

/-- States that differ at most in the effect log. -/
def SameData (s s1 : State) : Prop :=
  s1.files = s.files ∧ s1.currentFile = s.currentFile ∧ s1.rows = s.rows ∧ s1.done = s.done

/-! ## Auxiliary lemmas -/

theorem walkFn_error_none (files : List String) (e : WalkEntry) :
    (walkFn files e).2.2 = none := by
  unfold walkFn
  cases e.info with
  | error err => rfl
  | ok isDir => cases isDir <;> rfl

theorem walk_eq (entries : List WalkEntry) :
    ∀ (files : List String) (log : List Effect),
      walk files log entries =
        (files ++ regularPaths entries, log ++ accessMessages entries, none) := by
  induction entries with
  | nil => intro files log; simp [walk, regularPaths, accessMessages]
  | cons e rest ih =>
    intro files log
    obtain ⟨path, info⟩ := e
    cases info with
    | error err =>
      simp [walk, walkFn, ih, regularPaths, accessMessages]
    | ok isDir =>
      cases isDir <;> simp [walk, walkFn, ih, regularPaths, accessMessages]

theorem cursorOk_moveToNextFile (s s1 : State) (h : CursorOk s)
    (h1 : moveToNextFile s = .ok s1) : CursorOk s1 := by
  unfold moveToNextFile at h1
  unfold CursorOk at *
  split_ifs at h1 with hlt
  · cases h1; simp only; omega
  · cases hd : s.done <;> simp [hd] at h1
    subst h1; simpa using h

theorem cursorOk_moveToPreviousFile (s : State) (h : CursorOk s) :
    CursorOk (moveToPreviousFile s) := by
  unfold moveToPreviousFile CursorOk at *
  split_ifs with hgt
  · simp only; omega
  · exact h

theorem length_take_append_drop (l : List String) (i : Nat) (h : i < l.length) :
    (l.take i ++ l.drop (i + 1)).length + 1 = l.length := by
  simp only [List.length_append, List.length_take, List.length_drop]
  omega

theorem take_append_drop_eq_eraseIdx (l : List String) (i : Nat) :
    l.take i ++ l.drop (i + 1) = l.eraseIdx i := by
  induction l generalizing i with
  | nil => simp
  | cons a tl ih =>
    cases i with
    | zero => simp
    | succ n => simp [ih]

theorem cursorOk_deleteCurrentFile (s s1 : State) (err : Option String) (h : CursorOk s)
    (h1 : deleteCurrentFile s err = .ok s1) : CursorOk s1 := by
  unfold deleteCurrentFile at h1
  unfold CursorOk at *
  split_ifs at h1 with hlt hneg
  · cases h1
    have hi : s.currentFile.toNat < s.files.length := by omega
    have := length_take_append_drop s.files s.currentFile.toNat hi
    simp only
    omega
  · cases h1; simpa using h

theorem cursorOk_handleKey (s s1 : State) (e : Event) (h : CursorOk s)
    (h1 : handleKey s e = .ok s1) : CursorOk s1 := by
  unfold handleKey at h1
  split_ifs at h1
  · exact cursorOk_deleteCurrentFile s s1 _ h h1
  · exact cursorOk_moveToNextFile s s1 h h1
  · cases h1; exact cursorOk_moveToPreviousFile s h
  · exact cursorOk_moveToNextFile s s1 h h1
  · cases h1; exact cursorOk_moveToPreviousFile s h
  · exact cursorOk_moveToNextFile s s1 h h1
  · cases h1; exact h

theorem confirmLoop_answered (ks : List String) :
    ∀ (s s1 : State) (c : Bool),
      confirmLoop s ks = ConfirmResult.answered c s1 → SameData s s1 := by
  induction ks with
  | nil => intro s s1 c h; simp [confirmLoop] at h
  | cons k tl ih =>
    intro s s1 c h
    unfold confirmLoop at h
    split_ifs at h with hy hn
    · cases h; exact ⟨rfl, rfl, rfl, rfl⟩
    · cases h; exact ⟨rfl, rfl, rfl, rfl⟩
    · exact ih s s1 c h

theorem confirmLoop_blocked (ks : List String) :
    ∀ (s s1 : State), confirmLoop s ks = ConfirmResult.blocked s1 → s1 = s := by
  induction ks with
  | nil => intro s s1 h; simp [confirmLoop] at h; exact h.symm
  | cons k tl ih =>
    intro s s1 h
    unfold confirmLoop at h
    split_ifs at h with hy hn
    exact ih s s1 h

theorem confirmExit_answered (s s1 : State) (ks : List String) (c : Bool)
    (h : confirmExit s ks = ConfirmResult.answered c s1) : SameData s s1 := by
  unfold confirmExit at h
  have h2 := confirmLoop_answered ks _ s1 c h
  exact h2

theorem confirmExit_blocked (s s1 : State) (ks : List String)
    (h : confirmExit s ks = ConfirmResult.blocked s1) : SameData s s1 := by
  unfold confirmExit at h
  have := confirmLoop_blocked ks _ s1 h
  subst this
  exact ⟨rfl, rfl, rfl, rfl⟩

/-- A property of the state that every handled key and every exit confirmation
preserves holds in the state any run of the main loop ends in; and a run that
panics does so in a key handler called in such a state. -/
theorem mainLoop_preserves (P : State → Prop)
    (hkey : ∀ s e s1, P s → handleKey s e = .ok s1 → P s1)
    (hsame : ∀ s s1, P s → SameData s s1 → P s1) :
    ∀ (evs : List Event) (s : State), P s →
      P (mainLoop s evs).state ∧
      ∀ p t, mainLoop s evs = Outcome.panicked p t → P t ∧ ∃ e, handleKey t e = .error p := by
  intro evs
  induction evs with
  | nil =>
    intro s hP
    rw [mainLoop]
    split_ifs <;> exact ⟨hP, by intro p t h; cases h⟩
  | cons e rest ih =>
    intro s hP
    rw [mainLoop]
    split_ifs with hret hq
    · exact ⟨hP, by intro p t h; cases h⟩
    · split
      · next s1 h =>
        exact ⟨hsame s s1 hP (confirmExit_blocked s s1 _ h), by intro p t h; cases h⟩
      · next s1 h =>
        exact ⟨hsame s s1 hP (confirmExit_answered s s1 _ true h),
          by intro p t h; cases h⟩
      · next s1 h =>
        exact ih s1 (hsame s s1 hP (confirmExit_answered s s1 _ false h))
    · split
      · next p0 h =>
        refine ⟨hP, ?_⟩
        intro p t hpt
        cases hpt
        exact ⟨hP, e, h⟩
      · next s1 h => exact ih s1 (hkey s e s1 hP h)

theorem cursorOk_mainLoop (s : State) (evs : List Event) (h : CursorOk s) :
    CursorOk (mainLoop s evs).state := by
  refine (mainLoop_preserves CursorOk ?_ ?_ evs s h).1
  · intro s e s1 hs h1; exact cursorOk_handleKey s s1 e hs h1
  · intro s s1 hs hd
    obtain ⟨hf, hc, _, _⟩ := hd
    unfold CursorOk at *
    rw [hf, hc]; exact hs

theorem cursorOk_of_reachable (s : State) (h : Reachable s) : CursorOk s := by
  obtain ⟨s0, evs, hne, hc, rfl⟩ := h
  apply cursorOk_mainLoop
  unfold CursorOk initUI
  simp only [hc]
  omega

theorem reachable_of_mainLoop (fs : List String) (evs : List Event) (hne : fs ≠ []) :
    Reachable (mainLoop (startState fs) evs).state :=
  ⟨{ files := fs, currentFile := 0, rows := [], done := Chan.nil, log := [] }, evs,
    hne, rfl, rfl⟩

theorem deleteCurrentFile_sublist (s s1 : State) (err : Option String)
    (h1 : deleteCurrentFile s err = .ok s1) : s1.files.Sublist s.files := by
  unfold deleteCurrentFile at h1
  split_ifs at h1 with hlt hneg
  · cases h1
    simp only
    rw [take_append_drop_eq_eraseIdx]
    exact List.eraseIdx_sublist _ _
  · cases h1; exact List.Sublist.refl _

theorem moveToNextFile_files (s s1 : State) (h1 : moveToNextFile s = .ok s1) :
    s1.files = s.files := by
  unfold moveToNextFile at h1
  split_ifs at h1 with hlt
  · cases h1; rfl
  · cases hd : s.done <;> simp [hd] at h1
    subst h1; rfl

theorem moveToPreviousFile_files (s : State) : (moveToPreviousFile s).files = s.files := by
  unfold moveToPreviousFile; split_ifs <;> rfl

theorem handleKey_sublist (s s1 : State) (e : Event) (h1 : handleKey s e = .ok s1) :
    s1.files.Sublist s.files := by
  unfold handleKey at h1
  split_ifs at h1
  · exact deleteCurrentFile_sublist s s1 _ h1
  · rw [moveToNextFile_files s s1 h1]
  · cases h1; rw [moveToPreviousFile_files]
  · rw [moveToNextFile_files s s1 h1]
  · cases h1; rw [moveToPreviousFile_files]
  · rw [moveToNextFile_files s s1 h1]
  · cases h1; exact List.Sublist.refl _

theorem mainLoop_sublist (s : State) (evs : List Event) :
    (mainLoop s evs).state.files.Sublist s.files := by
  refine (mainLoop_preserves (fun t => t.files.Sublist s.files) ?_ ?_ evs s
    (List.Sublist.refl _)).1
  · intro t e t1 ht h1; exact (handleKey_sublist t t1 e h1).trans ht
  · intro t t1 ht hd
    show t1.files.Sublist s.files
    rw [hd.1]; exact ht

theorem main_files_nil (entries : List WalkEntry) :
    (main entries []).state.files = regularPaths entries := by
  unfold main
  simp only [walk_eq, List.nil_append]
  split_ifs with h0
  · rfl
  · rw [mainLoop]
    simp [initUI, Outcome.state]

theorem main_files_sublist (entries : List WalkEntry) (evs : List Event) :
    (main entries evs).state.files.Sublist (regularPaths entries) := by
  unfold main
  simp only [walk_eq, List.nil_append]
  split_ifs with h0
  · exact List.Sublist.refl _
  · exact mainLoop_sublist _ evs

theorem handleKey_error_index (s : State) (e : Event)
    (h : handleKey s e = .error Panic.indexOutOfRange) : s.currentFile < 0 := by
  unfold handleKey at h
  have hnext : moveToNextFile s ≠ .error Panic.indexOutOfRange := by
    unfold moveToNextFile
    split_ifs
    · simp
    · cases s.done <;> simp
  split_ifs at h
  · unfold deleteCurrentFile at h
    split_ifs at h with hlt hneg
    exact hneg
  · exact absurd h hnext
  · exact absurd h hnext
  · exact absurd h hnext

theorem mainLoop_no_index_panic (s t : State) (evs : List Event) (h : CursorOk s) :
    mainLoop s evs ≠ Outcome.panicked Panic.indexOutOfRange t := by
  intro hp
  have hpres := (mainLoop_preserves CursorOk
    (fun s e s1 hs h1 => cursorOk_handleKey s s1 e hs h1)
    (fun s s1 hs hd => by
      unfold CursorOk at *
      rw [hd.1, hd.2.1]; exact hs)
    evs s h).2 _ _ hp
  obtain ⟨ht, e, he⟩ := hpres
  have := handleKey_error_index t e he
  unfold CursorOk at ht
  omega

theorem deleteCurrentFile_in_range (s : State) (err : Option String)
    (hlo : 0 ≤ s.currentFile) (hlt : s.currentFile < (s.files.length : Int)) :
    ∃ s1, deleteCurrentFile s err = .ok s1 ∧ s1.currentFile = s.currentFile ∧
      s1.files = s.files.take s.currentFile.toNat ++ s.files.drop (s.currentFile.toNat + 1) := by
  have hneg : ¬ s.currentFile < 0 := by omega
  unfold deleteCurrentFile
  rw [if_pos hlt, if_neg hneg]
  exact ⟨_, rfl, rfl, rfl⟩

theorem deleteCurrentFile_past_end (s : State) (err : Option String)
    (hge : ¬ s.currentFile < (s.files.length : Int)) :
    ∃ s1, deleteCurrentFile s err = .ok s1 ∧ s1.currentFile = s.currentFile ∧
      s1.files = s.files := by
  unfold deleteCurrentFile
  rw [if_neg hge]
  exact ⟨_, rfl, rfl, rfl⟩

theorem confirmLoop_skip (ks l : List String) (hks : ∀ k ∈ ks, k ≠ "y" ∧ k ≠ "n") :
    ∀ t : State, confirmLoop t (ks ++ l) = confirmLoop t l := by
  induction ks with
  | nil => intro t; rfl
  | cons k tl ih =>
    intro t
    have hk := hks k (List.mem_cons_self _ _)
    rw [List.cons_append, confirmLoop, if_neg hk.1, if_neg hk.2]
    exact ih (fun k1 h1 => hks k1 (List.mem_cons_of_mem _ h1)) t

/-- What `confirmExit` does with the keys its own channel delivers: keys other
than "y" and "n" are skipped; then "n" returns false and "y" returns true,
each with files, currentFile, the list rows and `done` as they were. -/
theorem confirmExit_answer (s : State) (ks more : List String)
    (hks : ∀ k ∈ ks, k ≠ "y" ∧ k ≠ "n") :
    (∃ s1, confirmExit s (ks ++ "n" :: more) = ConfirmResult.answered false s1 ∧
      SameData s s1) ∧
    (∃ s1, confirmExit s (ks ++ "y" :: more) = ConfirmResult.answered true s1 ∧
      SameData s s1) := by
  constructor
  · refine ⟨{ s with log := s.log ++ [Effect.render [Widget.confirmText]] ++
        [Effect.render [Widget.fileListTitle, Widget.fileList]] }, ?_, rfl, rfl, rfl, rfl⟩
    unfold confirmExit
    rw [confirmLoop_skip ks _ hks, confirmLoop, if_neg (by decide), if_pos rfl]
  · refine ⟨{ s with log := s.log ++ [Effect.render [Widget.confirmText]] }, ?_,
      rfl, rfl, rfl, rfl⟩
    unfold confirmExit
    rw [confirmLoop_skip ks _ hks, confirmLoop, if_pos rfl]

/-! ## The claims -/

/-- C5: scenario. From files = ["/d/a","/d/b","/d/c"] with currentFile = 0 an
advance gives currentFile = 1; a following delete (whatever `os.Remove`
returns) gives files = ["/d/a","/d/c"] with currentFile still 1, the index of
"/d/c"; a following advance closes `done` instead of staying in Browsing, and
the main loop fed the three keys returns. -/
theorem scenario_advance_delete_advance (err : Option String) :
    ∃ s1 s2 s3,
      moveToNextFile (startState ["/d/a", "/d/b", "/d/c"]) = .ok s1 ∧
      s1.currentFile = 1 ∧ s1.files = ["/d/a", "/d/b", "/d/c"] ∧ s1.done = Chan.opened ∧
      deleteCurrentFile s1 err = .ok s2 ∧
      s2.files = ["/d/a", "/d/c"] ∧ s2.currentFile = 1 ∧ s2.files.get? 1 = some "/d/c" ∧
      s2.done = Chan.opened ∧
      moveToNextFile s2 = .ok s3 ∧
      s3.done = Chan.closed ∧ s3.files = ["/d/a", "/d/c"] ∧ s3.currentFile = 1 ∧
      mainLoop (startState ["/d/a", "/d/b", "/d/c"])
        [key "<Space>", { key "<Enter>" with removeErr := err }, key "<Space>"]
        = Outcome.returned s3 := by
  cases err <;>
    simp [mainLoop, startState, initUI, key, handleKey, moveToNextFile, deleteCurrentFile]

/-- C6: in a Browsing state (`done` made and not closed) an advance with
currentFile < len(files) - 1 increments currentFile by exactly one, leaves
files unchanged and leaves `done` open, so the loop goes on waiting for events;
otherwise (in particular with currentFile at the last element) it leaves files
and currentFile unchanged and closes `done`, on which the main loop returns. -/
theorem moveToNextFile_advance_or_terminate (s : State) (hd : s.done = Chan.opened) :
    (s.currentFile < (s.files.length : Int) - 1 →
      ∃ s1, moveToNextFile s = .ok s1 ∧ s1.currentFile = s.currentFile + 1 ∧
        s1.files = s.files ∧ s1.done = Chan.opened ∧
        mainLoop s1 [] = Outcome.blocked s1) ∧
    ((s.files.length : Int) - 1 ≤ s.currentFile →
      ∃ s1, moveToNextFile s = .ok s1 ∧ s1.currentFile = s.currentFile ∧
        s1.files = s.files ∧ s1.done = Chan.closed ∧
        mainLoop s1 [] = Outcome.returned s1) := by
  constructor
  · intro hlt
    have h1 : moveToNextFile s = .ok
        { s with
          currentFile := s.currentFile + 1
          log := s.log ++ [Effect.scrollDown,
            Effect.render [Widget.fileListTitle, Widget.fileList]] } := by
      simp only [moveToNextFile, if_pos hlt]
    refine ⟨_, h1, rfl, rfl, hd, ?_⟩
    rw [mainLoop]
    simp [hd]
  · intro hge
    have hnlt : ¬ s.currentFile < (s.files.length : Int) - 1 := by omega
    have h1 : moveToNextFile s = .ok
        { s with
          done := Chan.closed
          log := s.log ++ [Effect.render [Widget.fileListTitle]] } := by
      simp only [moveToNextFile, if_neg hnlt, hd]
    refine ⟨_, h1, rfl, rfl, rfl, ?_⟩
    rw [mainLoop]
    simp

theorem moveToNextFile_advance_or_terminate_witness :
    (startState ["/d/a", "/d/b"]).done = Chan.opened ∧
    (∃ s1, moveToNextFile (startState ["/d/a", "/d/b"]) = .ok s1 ∧
      s1.currentFile = (startState ["/d/a", "/d/b"]).currentFile + 1 ∧
      s1.files = (startState ["/d/a", "/d/b"]).files ∧ s1.done = Chan.opened ∧
      mainLoop s1 [] = Outcome.blocked s1) ∧
    (∃ s1, moveToNextFile (startState ["/d/a"]) = .ok s1 ∧
      s1.currentFile = (startState ["/d/a"]).currentFile ∧
      s1.files = (startState ["/d/a"]).files ∧ s1.done = Chan.closed ∧
      mainLoop s1 [] = Outcome.returned s1) :=
  ⟨rfl,
   (moveToNextFile_advance_or_terminate (startState ["/d/a", "/d/b"]) rfl).1 (by decide),
   (moveToNextFile_advance_or_terminate (startState ["/d/a"]) rfl).2 (by decide)⟩

/-- C7: a retreat never changes files, never closes `done` and cannot fail
(the function is total); with currentFile > 0 it decrements currentFile by
exactly one, and with currentFile = 0 it returns the state it was given. The
keys "j" and "<Up>" are dispatched to it. -/
theorem moveToPreviousFile_frame (s : State) :
    (moveToPreviousFile s).files = s.files ∧
    (moveToPreviousFile s).done = s.done ∧
    (0 < s.currentFile → (moveToPreviousFile s).currentFile = s.currentFile - 1) ∧
    (s.currentFile = 0 → moveToPreviousFile s = s) ∧
    (∀ e : Event, e.ID = "j" ∨ e.ID = "<Up>" →
      handleKey s e = .ok (moveToPreviousFile s)) := by
  refine ⟨?_, ?_, ?_, ?_, ?_⟩
  · unfold moveToPreviousFile; split_ifs <;> rfl
  · unfold moveToPreviousFile; split_ifs <;> rfl
  · intro h; unfold moveToPreviousFile; rw [if_pos h]
  · intro h; unfold moveToPreviousFile; rw [if_neg (by omega)]
  · intro e he
    rcases he with he | he <;> simp [handleKey, he]

theorem moveToPreviousFile_frame_witness :
    (moveToPreviousFile { startState ["/d/a", "/d/b"] with currentFile := 1 }).currentFile = 0 ∧
    moveToPreviousFile (startState ["/d/a", "/d/b"]) = startState ["/d/a", "/d/b"] :=
  ⟨(moveToPreviousFile_frame { startState ["/d/a", "/d/b"] with currentFile := 1 }).2.2.1
      (by decide),
   (moveToPreviousFile_frame (startState ["/d/a", "/d/b"])).2.2.2.1 rfl⟩

/-- C9: the walk callback never returns an error, whatever entry it is
given, so the walk visits every entry and returns no error; started from an
empty files it accumulates exactly the paths of the entries that have no error
and are not directories, in visit order. -/
theorem walk_collects_regular_files (entries : List WalkEntry) :
    (∀ (files : List String) (e : WalkEntry), (walkFn files e).2.2 = none) ∧
    (walk [] [] entries).1 = regularPaths entries ∧
    (walk [] [] entries).2.2 = none ∧
    (main entries []).state.files = regularPaths entries := by
  refine ⟨walkFn_error_none, ?_, ?_, main_files_nil entries⟩
  · rw [walk_eq]; simp
  · rw [walk_eq]

/-- C1, the claim as stated fails: from files = ["/d/a","/d/b"] an advance
followed by a delete leaves the loop waiting in Browsing with the non-empty
list ["/d/a"] and currentFile = 1 = len(files). -/
theorem cursor_equals_length_after_delete :
    ∃ s, mainLoop (startState ["/d/a", "/d/b"]) [key "<Space>", key "<Enter>"]
        = Outcome.blocked s ∧
      s.files = ["/d/a"] ∧ s.files ≠ [] ∧ s.done = Chan.opened ∧ s.currentFile = 1 ∧
      ¬ (s.currentFile < (s.files.length : Int)) := by
  simp [mainLoop, startState, initUI, key, handleKey, moveToNextFile, deleteCurrentFile]

/-- C1, amended: in every state reached from a non-empty list and cursor 0
the cursor satisfies 0 <= currentFile <= len(files). The strict bound
currentFile < len(files) holds after an advance that leaves `done` open, after
a retreat whenever files is non-empty, and after a delete applied with the
cursor before the last element. -/
theorem cursor_within_or_at_end (s : State) (h : Reachable s) :
    0 ≤ s.currentFile ∧ s.currentFile ≤ (s.files.length : Int) ∧
    (∀ s1, moveToNextFile s = .ok s1 → s1.done = Chan.opened →
      0 ≤ s1.currentFile ∧ s1.currentFile < (s1.files.length : Int)) ∧
    ((moveToPreviousFile s).files ≠ [] →
      0 ≤ (moveToPreviousFile s).currentFile ∧
      (moveToPreviousFile s).currentFile < ((moveToPreviousFile s).files.length : Int)) ∧
    (∀ err s1, deleteCurrentFile s err = .ok s1 →
      s.currentFile + 1 < (s.files.length : Int) →
      0 ≤ s1.currentFile ∧ s1.currentFile < (s1.files.length : Int)) := by
  have hok := cursorOk_of_reachable s h
  obtain ⟨hlo, hhi⟩ := hok
  refine ⟨hlo, hhi, ?_, ?_, ?_⟩
  · intro s1 h1 hd1
    unfold moveToNextFile at h1
    split_ifs at h1 with hlt
    · cases h1; simp only; omega
    · cases hd : s.done <;> simp [hd] at h1
      subst h1; simp at hd1
  · intro hne
    have hpos : 0 < (moveToPreviousFile s).files.length := List.length_pos.mpr hne
    have hok1 := cursorOk_moveToPreviousFile s ⟨hlo, hhi⟩
    refine ⟨hok1.1, ?_⟩
    rw [moveToPreviousFile_files] at hpos ⊢
    unfold moveToPreviousFile
    split_ifs with hgt
    · simp only; omega
    · omega
  · intro err s1 h1 hlt
    have hok1 := cursorOk_deleteCurrentFile s s1 err ⟨hlo, hhi⟩ h1
    refine ⟨hok1.1, ?_⟩
    unfold deleteCurrentFile at h1
    split_ifs at h1 with hlt1 hneg
    · cases h1
      have hi : s.currentFile.toNat < s.files.length := by omega
      have := length_take_append_drop s.files s.currentFile.toNat hi
      simp only
      omega
    · omega

theorem cursor_within_or_at_end_witness :
    ∃ s, Reachable s ∧ s.files = ["/d/a"] ∧ s.currentFile = 1 ∧
      0 ≤ s.currentFile ∧ s.currentFile ≤ (s.files.length : Int) ∧
      (moveToPreviousFile s).currentFile < ((moveToPreviousFile s).files.length : Int) := by
  refine ⟨(mainLoop (startState ["/d/a", "/d/b"]) [key "<Space>", key "<Enter>"]).state,
    reachable_of_mainLoop _ _ (by decide), ?_, ?_, ?_⟩
  · simp [mainLoop, startState, initUI, key, handleKey, moveToNextFile, deleteCurrentFile,
      Outcome.state]
  · simp [mainLoop, startState, initUI, key, handleKey, moveToNextFile, deleteCurrentFile,
      Outcome.state]
  · have hw := cursor_within_or_at_end _
      (reachable_of_mainLoop ["/d/a", "/d/b"] [key "<Space>", key "<Enter>"] (by decide))
    refine ⟨hw.1, hw.2.1, (hw.2.2.2.1 ?_).2⟩
    simp [mainLoop, startState, initUI, key, handleKey, moveToNextFile, deleteCurrentFile,
      moveToPreviousFile, Outcome.state]

/-- C2, the claim as stated fails: from files = ["/d/a","/d/b","/d/c"] two
advances and a delete leave the loop in Browsing with files = ["/d/a","/d/b"]
and currentFile = 2; a further delete there removes nothing, so the list is not
shortened. -/
theorem delete_at_length_removes_nothing :
    ∃ s s1, mainLoop (startState ["/d/a", "/d/b", "/d/c"])
        [key "<Down>", key "<Down>", key "<Enter>"] = Outcome.blocked s ∧
      s.files = ["/d/a", "/d/b"] ∧ s.currentFile = 2 ∧
      deleteCurrentFile s none = .ok s1 ∧
      s1.files = ["/d/a", "/d/b"] ∧ s1.files.length + 1 ≠ s.files.length := by
  simp [mainLoop, startState, initUI, key, handleKey, moveToNextFile, deleteCurrentFile]

/-- C2, amended: in every state reached from a non-empty list and cursor 0,
whatever `os.Remove` returns, a delete returns normally and keeps currentFile;
with currentFile < len(files) it shortens files by exactly one, the new list
being the old one with the element at index currentFile removed and the other
entries in their original order; otherwise currentFile = len(files) and files
is left unchanged. -/
theorem deleteCurrentFile_removes_cursor_entry (s : State) (h : Reachable s)
    (err : Option String) :
    ∃ s1, deleteCurrentFile s err = .ok s1 ∧ s1.currentFile = s.currentFile ∧
      (s.currentFile < (s.files.length : Int) →
        s1.files = s.files.eraseIdx s.currentFile.toNat ∧
        s1.files.length + 1 = s.files.length ∧
        s1.files.Sublist s.files) ∧
      (¬ s.currentFile < (s.files.length : Int) →
        s.currentFile = (s.files.length : Int) ∧ s1.files = s.files) := by
  obtain ⟨hlo, hhi⟩ := cursorOk_of_reachable s h
  by_cases hlt : s.currentFile < (s.files.length : Int)
  · have hi : s.currentFile.toNat < s.files.length := by omega
    obtain ⟨s1, h1, hc, hf⟩ := deleteCurrentFile_in_range s err hlo hlt
    refine ⟨s1, h1, hc, ?_, ?_⟩
    · intro _
      rw [hf]
      refine ⟨take_append_drop_eq_eraseIdx _ _, length_take_append_drop _ _ hi, ?_⟩
      rw [take_append_drop_eq_eraseIdx]
      exact List.eraseIdx_sublist _ _
    · intro hn; exact absurd hlt hn
  · obtain ⟨s1, h1, hc, hf⟩ := deleteCurrentFile_past_end s err hlt
    refine ⟨s1, h1, hc, ?_, ?_⟩
    · intro hl; exact absurd hl hlt
    · intro _; exact ⟨by omega, hf⟩

theorem deleteCurrentFile_removes_cursor_entry_witness :
    Reachable (mainLoop (startState ["/d/a", "/d/b", "/d/c"]) [key "<Space>"]).state ∧
    ∃ s1, deleteCurrentFile
        (mainLoop (startState ["/d/a", "/d/b", "/d/c"]) [key "<Space>"]).state
        (some "permission denied") = .ok s1 ∧
      s1.files = ["/d/a", "/d/c"] := by
  refine ⟨reachable_of_mainLoop _ _ (by decide), ?_⟩
  obtain ⟨s1, h1, _, hin, _⟩ := deleteCurrentFile_removes_cursor_entry _
    (reachable_of_mainLoop ["/d/a", "/d/b", "/d/c"] [key "<Space>"] (by decide))
    (some "permission denied")
  refine ⟨s1, h1, ?_⟩
  have h2 := (hin (by
    simp [mainLoop, startState, initUI, key, handleKey, moveToNextFile, Outcome.state])).1
  rw [h2]
  simp [mainLoop, startState, initUI, key, handleKey, moveToNextFile, Outcome.state]

/-- C10: in every state reached from a non-empty list and cursor 0,
0 <= currentFile <= len(files). Hence the guarded body of deleteCurrentFile
runs only with 0 <= currentFile < len(files), where the index and both slice
bounds are in range: a delete always returns normally and no run of the main
loop panics with an index out of range. A delete with currentFile = len(files)
leaves files and currentFile unchanged. -/
theorem cursor_bound_keeps_delete_in_range (s : State) (h : Reachable s) :
    0 ≤ s.currentFile ∧ s.currentFile ≤ (s.files.length : Int) ∧
    (∀ err, ∃ s1, deleteCurrentFile s err = .ok s1 ∧
      (s.currentFile = (s.files.length : Int) →
        s1.files = s.files ∧ s1.currentFile = s.currentFile)) ∧
    (s.currentFile < (s.files.length : Int) →
      s.currentFile.toNat < s.files.length ∧ (s.currentFile.toNat : Int) = s.currentFile ∧
      s.currentFile.toNat + 1 ≤ s.files.length) ∧
    (∀ evs t, mainLoop s evs ≠ Outcome.panicked Panic.indexOutOfRange t) := by
  have hok := cursorOk_of_reachable s h
  obtain ⟨hlo, hhi⟩ := hok
  refine ⟨hlo, hhi, ?_, ?_, ?_⟩
  · intro err
    by_cases hlt : s.currentFile < (s.files.length : Int)
    · obtain ⟨s1, h1, _, _⟩ := deleteCurrentFile_in_range s err hlo hlt
      refine ⟨s1, h1, ?_⟩
      intro heq; omega
    · obtain ⟨s1, h1, hc, hf⟩ := deleteCurrentFile_past_end s err hlt
      refine ⟨s1, h1, ?_⟩
      intro _; exact ⟨hf, hc⟩
  · intro hlt; omega
  · intro evs t
    exact mainLoop_no_index_panic s t evs ⟨hlo, hhi⟩

theorem cursor_bound_keeps_delete_in_range_witness :
    ∃ s, Reachable s ∧ s.files = [] ∧ s.currentFile = 0 ∧
      ∃ s1, deleteCurrentFile s none = .ok s1 ∧ s1.files = s.files ∧
        s1.currentFile = s.currentFile := by
  have hr := reachable_of_mainLoop ["/d/a"] [key "<Enter>"] (by decide)
  have hf : (mainLoop (startState ["/d/a"]) [key "<Enter>"]).state.files = [] := by
    simp [mainLoop, startState, initUI, key, handleKey, deleteCurrentFile, Outcome.state]
  have hc : (mainLoop (startState ["/d/a"]) [key "<Enter>"]).state.currentFile = 0 := by
    simp [mainLoop, startState, initUI, key, handleKey, deleteCurrentFile, Outcome.state]
  obtain ⟨s1, h1, h2⟩ := (cursor_bound_keeps_delete_in_range _ hr).2.2.1 none
  exact ⟨_, hr, hf, hc, s1, h1, h2 (by rw [hc, hf]; rfl)⟩

/-- C3, the code on the failing input: with the single file "/d/a" the first
advance closes `done`. A second call of moveToNextFile closes `done` again,
which panics. The main loop returns if `select` takes the `<-done` case, and
panics if it takes the second advance event, which is ready as well. -/
theorem second_advance_closes_done_again :
    ∃ s1, moveToNextFile (startState ["/d/a"]) = .ok s1 ∧ s1.done = Chan.closed ∧
      moveToNextFile s1 = .error Panic.closeOfClosedChannel ∧
      mainLoop (startState ["/d/a"]) [key "<Space>", key "<Space>"] = Outcome.returned s1 ∧
      mainLoop (startState ["/d/a"]) [key "<Space>", { key "<Space>" with raced := true }]
        = Outcome.panicked Panic.closeOfClosedChannel s1 := by
  simp [mainLoop, startState, initUI, key, handleKey, moveToNextFile]

/-- C4, the code on the failing input: with files = ["/d/a","/d/b"] the keys
"q", "<Enter>", "n" are typed. `confirmExit` reads the channel of its own, and
on "n" it returns false with files and currentFile as before. The "<Enter>"
typed during the prompt is delivered by the channel of `main`, whose reader is
still alive, so `main` handles it after the prompt is cancelled and "/d/a" is
removed; a "<Space>" delivered that way on the single file "/d/a" makes `main`
return, and a "q" opens the prompt again. Had `confirmExit` received the
"<Enter>", it would have skipped it and the state would be as before. -/
theorem key_typed_during_prompt_handled_after_cancel :
    (∃ s1, confirmExit (startState ["/d/a", "/d/b"]) ["n"] = ConfirmResult.answered false s1 ∧
      s1.files = ["/d/a", "/d/b"] ∧ s1.currentFile = 0) ∧
    (∃ s2, mainLoop (startState ["/d/a", "/d/b"])
        [{ key "q" with prompt := ["n"] }, key "<Enter>"] = Outcome.blocked s2 ∧
      s2.files = ["/d/b"] ∧ s2.files ≠ (startState ["/d/a", "/d/b"]).files ∧
      Effect.remove "/d/a" ∈ s2.log) ∧
    (∃ s2, mainLoop (startState ["/d/a"])
        [{ key "q" with prompt := ["n"] }, key "<Space>"] = Outcome.returned s2) ∧
    (∃ s2, mainLoop (startState ["/d/a", "/d/b"])
        [{ key "q" with prompt := ["n"] }, key "q"] = Outcome.blockedConfirm s2) ∧
    (∃ s2, mainLoop (startState ["/d/a", "/d/b"])
        [{ key "q" with prompt := ["<Enter>", "n"] }] = Outcome.blocked s2 ∧
      s2.files = ["/d/a", "/d/b"] ∧ s2.currentFile = 0) := by
  refine ⟨?_, ?_, ?_, ?_, ?_⟩ <;>
    simp [mainLoop, startState, initUI, key, handleKey, moveToNextFile, deleteCurrentFile,
      confirmExit, confirmLoop]

/-- C8: whatever the initial state and the events (advance, retreat, delete,
quit and its confirmation, any other key), the files a run of the main loop
ends with is a sublist of the initial files, so it is never longer; the files
`main` ends with is a sublist of the paths the walk collected, in scan order.
An advance, a retreat and an exit confirmation leave files exactly unchanged,
and a delete yields a sublist. -/
theorem files_only_shrink (s : State) (evs : List Event) :
    (mainLoop s evs).state.files.Sublist s.files ∧
    (mainLoop s evs).state.files.length ≤ s.files.length ∧
    (∀ entries, (main entries evs).state.files.Sublist (regularPaths entries)) ∧
    (∀ s1, moveToNextFile s = .ok s1 → s1.files = s.files) ∧
    (moveToPreviousFile s).files = s.files ∧
    (∀ ks c s1, confirmExit s ks = ConfirmResult.answered c s1 → s1.files = s.files) ∧
    (∀ ks s1, confirmExit s ks = ConfirmResult.blocked s1 → s1.files = s.files) ∧
    (∀ err s1, deleteCurrentFile s err = .ok s1 →
      s1.files.Sublist s.files ∧ s1.files.length ≤ s.files.length) := by
  refine ⟨mainLoop_sublist s evs, (mainLoop_sublist s evs).length_le,
    fun entries => main_files_sublist entries evs,
    fun s1 h1 => moveToNextFile_files s s1 h1, moveToPreviousFile_files s, ?_, ?_, ?_⟩
  · intro ks c s1 h1; exact (confirmExit_answered s s1 ks c h1).1
  · intro ks s1 h1; exact (confirmExit_blocked s s1 ks h1).1
  · intro err s1 h1
    exact ⟨deleteCurrentFile_sublist s s1 err h1, (deleteCurrentFile_sublist s s1 err h1).length_le⟩

end TermShredder
